import Mathlib

/-!
Verification development for the capstone_slides_gen repository: a Next.js
frontend (src/src) that drives a FastAPI slide-deck generation backend.
The concrete enumerations, lookup tables and request validation below are
transcribed from the TypeScript sources; components of the Python backend
that are absent from the repository (the workflow manager, the weighted
slide allocation and the content-fitting logic) are modelled from the
repository's own documentation (README.md, FASTAPI_SPEC.md) and the spec,
as marked in the individual doc comments.
-/

namespace SlidesGen

/-- The `DeckStatus` union from `src/src/lib/types.ts` (lines 1-9). -/
def deckStatusValues : List String :=
  ["outline", "analyze", "content", "optimize", "layout", "review", "done", "error"]

/-- The `Audience` union from `src/src/lib/types.ts`. -/
def audienceValues : List String :=
  ["technical", "business", "academic", "general"]

/-- The `Template` union from `src/src/lib/types.ts` (eight values). -/
def templateValues : List String :=
  ["corporate", "academic", "startup", "minimal", "creative", "nature", "futuristic", "luxury"]

/-- The `statusSteps` array from `src/src/components/DeckStatus.tsx` (lines 16-29):
the ordered step enumeration the progress tracker renders. -/
def statusSteps : List String :=
  ["outline", "analyze", "content", "charts", "optimize", "layout",
   "design", "images", "adjust", "review", "generating", "done"]

/-- The fixed state-to-percentage table documented in `README.md`
("Workflow Status Values", lines 349-362). -/
def progressTable : List (String × Nat) :=
  [("outline", 10), ("analyze", 18), ("content", 30), ("charts", 36),
   ("optimize", 42), ("layout", 52), ("design", 60), ("images", 70),
   ("adjust", 80), ("review", 90), ("generating", 95), ("done", 100)]

/-- The status ordering asserted by the spec (§4.1), transcribed from the
spec's words for comparison with the enumerations found in the source. -/
def specClaimedStatusOrder : List String :=
  ["received", "outline", "analyze", "content", "charts", "optimize", "layout",
   "design", "images", "adjust", "review", "rendering", "done"]

/-- The `statusColors` lookup table of the `DeckList` component
(`src/unnamed/part_004`, lines 27-34); its keys are legacy status names. -/
def deckListStatusColors : List (String × String) :=
  [("outline", "blue"), ("plan", "cyan"), ("fix", "geekblue"),
   ("render", "purple"), ("done", "green"), ("error", "red")]

/-- The `statusLabels` lookup table of the `DeckList` component
(`src/unnamed/part_004`, lines 36-43). -/
def deckListStatusLabels : List (String × String) :=
  [("outline", "OUTLINE"), ("plan", "PLAN"), ("fix", "FIX"),
   ("render", "RENDER"), ("done", "DONE"), ("error", "ERROR")]

/-! ## DeckForm (`src/unnamed/part_003`) -/

/-- Audience options offered by the `DeckForm` select (part_003, lines 65-70). -/
def formAudienceOptions : List String :=
  ["technical", "business", "academic", "general"]

/-- Template options offered by the `DeckForm` select (part_003, lines 78-83). -/
def formTemplateOptions : List String :=
  ["corporate", "academic", "startup", "minimal"]

/-- Slider lower bound in `DeckForm` (`<Slider min={5} ...>`). -/
def formSlideMin : Int := 5

/-- Slider upper bound in `DeckForm` (`<Slider ... max={30}>`). -/
def formSlideMax : Int := 30

/-- Default slide count from `DeckForm`'s `initialValues`. -/
def formSlideDefault : Int := 10

/-- Default audience from `DeckForm`'s `initialValues`. -/
def formAudienceDefault : String := "business"

/-- Default template from `DeckForm`'s `initialValues`. -/
def formTemplateDefault : String := "corporate"

/-- The value an antd slider with `min={5} max={30}` can actually hold:
any proposed value is clamped into the configured range. -/
def formSliderValue (v : Int) : Int := max formSlideMin (min formSlideMax v)

/-! ## POST /api/decks (`src/src/app/api/decks/route.ts`) -/

/-- The JSON body the POST handler parses (`DeckRequest` of types.ts, but
with no runtime constraint on any field beyond what the handler checks). -/
structure DeckRequestBody where
  prompt : String
  slideCount : Int
  audience : String
  template : String
deriving DecidableEq

/-- Outcome of the POST /api/decks handler before any network effect:
either a 400 response with the given error message, or the request is
forwarded to the FastAPI backend (which is what creates the job). -/
inductive PostOutcome where
  | badRequest (msg : String)
  | forwarded
deriving DecidableEq

/-- JavaScript's `!body.prompt || !body.prompt.trim()`: true exactly when
every character of the prompt is whitespace (the empty string included). -/
def promptBlank (s : String) : Bool := s.data.all Char.isWhitespace

/-- The validation logic of `POST` in `src/src/app/api/decks/route.ts`
(lines 35-47): rejects an empty/whitespace prompt and a slide count that is
falsy, below 5 or above 30; everything else is forwarded to the backend.
No check on `audience` or `template` appears in the handler. -/
def postDecks (body : DeckRequestBody) : PostOutcome :=
  if body.prompt = "" ∨ promptBlank body.prompt then
    .badRequest "Prompt is required"
  else if body.slideCount = 0 ∨ body.slideCount < 5 ∨ 30 < body.slideCount then
    .badRequest "Slide count must be between 5 and 30"
  else
    .forwarded

/-- Whether an outcome reaches the backing generation pipeline. -/
def PostOutcome.createsJob : PostOutcome → Bool
  | .badRequest _ => false
  | .forwarded => true

/-! ## Backend deck creation (`FASTAPI_SPEC.md`, example implementation)

The FastAPI backend's own source is not part of the repository; its
`create_deck` endpoint is embedded from the reference implementation
printed in `FASTAPI_SPEC.md` (lines 208-232): the deck record is stored as
`{"status": "outline", "progress": 0}` and generation is queued as a
background task, so the response is computed before any pipeline work. -/

/-- One stored deck record of the backend's `decks` store. -/
structure BackendDeck where
  status : String
  progress : Nat
deriving DecidableEq

/-- The backend's mutable state: the deck store plus the queue of
background generation tasks that have been scheduled but not yet run. -/
structure BackendState where
  decks : List (String × BackendDeck)
  queued : List String
deriving DecidableEq

/-- Response of `POST /decks` per `FASTAPI_SPEC.md`. -/
structure DeckCreateResponse where
  deckId : String
  status : String
deriving DecidableEq

/-- `create_deck` from the `FASTAPI_SPEC.md` example implementation:
stores `{"status": "outline", "progress": 0}` under a fresh id, schedules
`generate_deck` as a background task, and returns at once. -/
def create_deck (st : BackendState) (newId : String) :
    DeckCreateResponse × BackendState :=
  ({ deckId := newId, status := "outline" },
   { decks := (newId, { status := "outline", progress := 0 }) :: st.decks,
     queued := st.queued ++ [newId] })

/-- `GET /decks/{id}/status` of the example implementation: a snapshot
read of the stored record. -/
def get_status (st : BackendState) (deckId : String) : Option BackendDeck :=
  st.decks.lookup deckId

/-! ## Job lifecycle state machine

Modelled from the spec: the backend `WorkflowManager` and the
JobStateMachine operations (§4.1 `advance`/`fail`) are not present in the
repository's sources; the model below follows the spec's rules — advance
only to the immediate successor stage, fixed progress per stage, `error`
reachable from any non-terminal state — over the stage ordering and
progress table that the repository's own code and README record
(`statusSteps`, `progressTable`). -/

/-- Lifecycle record of one job: position in `statusSteps`, whether the
job has failed, and the last committed progress value. -/
structure JobRec where
  stageIdx : Nat
  failed : Bool
  progress : Nat
deriving DecidableEq

/-- The status string a reader observes for a job record. -/
def JobRec.statusStr (j : JobRec) : String :=
  if j.failed then "error" else statusSteps.getD j.stageIdx "error"

/-- The design-constant progress percentage of stage `i` of `statusSteps`. -/
def progressOfStage (i : Nat) : Nat :=
  (progressTable.lookup (statusSteps.getD i "")).getD 0

/-- A freshly created job: first stage (`outline`), progress 0, as stored
by `create_deck`. -/
def initialJob : JobRec := { stageIdx := 0, failed := false, progress := 0 }

/-- Operations a single-writer orchestrator may attempt on a job. -/
inductive JobOp where
  | advance (toState : String)
  | fail
deriving DecidableEq

/-- Modelled from the spec (§4.1): `advance` succeeds only to the
immediate successor of the current stage and commits that stage's fixed
progress value; `fail` moves any non-terminal job to `error` (a repeated
`fail` commits no new state); terminal states accept nothing. `none`
means the operation was rejected and no state was committed. -/
def applyOp (j : JobRec) : JobOp → Option JobRec
  | .advance t =>
    if j.failed then none
    else if j.stageIdx + 1 < statusSteps.length then
      if t = statusSteps.getD (j.stageIdx + 1) "" then
        some { stageIdx := j.stageIdx + 1, failed := false,
               progress := progressOfStage (j.stageIdx + 1) }
      else none
    else none
  | .fail =>
    if j.failed then none
    else if j.stageIdx = statusSteps.length - 1 then none
    else some { j with failed := true }

/-- Runs a sequence of operations from `j`, returning the committed
snapshots in order (rejected operations commit nothing). -/
def runJob (j : JobRec) : List JobOp → List JobRec
  | [] => []
  | op :: ops =>
    match applyOp j op with
    | some j' => j' :: runJob j' ops
    | none => runJob j ops

/-- All states a poller can observe over a job's lifetime under the given
operation sequence, starting from creation. -/
def observedStatuses (ops : List JobOp) : List String :=
  (initialJob :: runJob initialJob ops).map JobRec.statusStr

/-- All progress values a poller can observe over a job's lifetime. -/
def observedProgress (ops : List JobOp) : List Nat :=
  (initialJob :: runJob initialJob ops).map JobRec.progress

/-! ## Weighted slide allocation (`analyze` stage)

Modelled from the spec: the backend's structure-analysis step
(`workflow_manager.py`, "Weighted slide allocation" of §4.2) is not in the
repository. Per the spec, the requested slide total is distributed over
the outline sections proportionally to their importance weights, with a
floor of one slide per section, and any rounding remainder is assigned to
the highest-weight section. -/

/-- Index of the highest-weight section (first maximum). -/
def argmaxIdx (weights : List Nat) : Nat :=
  weights.indexOf (weights.foldr max 0)

/-- Proportional share with the one-slide floor: each section gets one
slide plus its weight's proportional share of the slides beyond one per
section. -/
def baseAlloc (weights : List Nat) (total : Nat) : List Nat :=
  weights.map (fun w => 1 + (total - weights.length) * w / weights.sum)

/-- Full allocation: the rounding remainder goes to the highest-weight
section. -/
def allocateSlides (weights : List Nat) (total : Nat) : List Nat :=
  let base := baseAlloc weights total
  let j := argmaxIdx weights
  base.set j (base.getD j 0 + (total - base.sum))

/-! ## Content-fitting engine

Modelled from the spec: the backend agents enforcing slide validity
(fallback content, truncation, background restriction, chart guarantee,
dynamic font sizing — README.md "Quality Assurance Features", spec §4.3)
are not in the repository. Slides follow the `SlideContent` model
documented in `back_end&up.md`; text is represented as its character
list; the two character ceilings are the repository's documented
constants `MAX_BULLET_CHARS=80` and `MAX_PARAGRAPH_CHARS=600`; table
bounds and the font-size thresholds are policy constants the spec leaves
open. The compression delegate is unavailable in this model, so length
repair always takes the deterministic word-boundary truncation path. -/

/-- `MAX_BULLET_CHARS` from README.md (Quality Assurance Features). -/
def MAX_BULLET_CHARS : Nat := 80

/-- `MAX_PARAGRAPH_CHARS` from README.md (Quality Assurance Features). -/
def MAX_PARAGRAPH_CHARS : Nat := 600

/-- Maximum table rows kept (policy constant). -/
def MAX_TABLE_ROWS : Nat := 6

/-- Maximum table columns kept (policy constant). -/
def MAX_TABLE_COLS : Nat := 4

/-- The ellipsis marker appended by deterministic truncation. -/
def ellipsisChars : List Char := ['.', '.', '.']

/-- Splits a character list into words at spaces (empty words kept, as
`String.split` would). -/
def splitWords : List Char → List (List Char)
  | [] => [[]]
  | c :: cs =>
    let r := splitWords cs
    if c = ' ' then [] :: r
    else
      match r with
      | [] => [[c]]
      | w :: ws => (c :: w) :: ws

/-- Joins words back with single spaces. -/
def joinWords : List (List Char) → List Char
  | [] => []
  | [w] => w
  | w :: ws => w ++ ' ' :: joinWords ws

/-- Greedily keeps whole words while the joined text stays within the
budget. -/
def fitWords : Nat → List (List Char) → List (List Char)
  | _, [] => []
  | budget, w :: ws =>
    if w.length < budget then w :: fitWords (budget - (w.length + 1)) ws
    else []

/-- Deterministic truncation at a word boundary with an ellipsis marker:
text within the ceiling is returned unchanged; longer text keeps a prefix
of its words fitting `ceiling - 3` characters and ends in `...`. -/
def truncateAt (ceiling : Nat) (text : List Char) : List Char :=
  if text.length ≤ ceiling then text
  else joinWords (fitWords (ceiling - ellipsisChars.length) (splitWords text)) ++ ellipsisChars

/-- `slideType` values of the `SlideContent` model (`back_end&up.md`). -/
inductive SlideType where
  | titleSlide
  | contentSlide
  | comparison
  | data
  | table
  | image
  | narrative
deriving DecidableEq

/-- One slide of the deck model, after `SlideContent` of `back_end&up.md`
(fields irrelevant to the fitting rules omitted). `data` is the chart
slide kind; `chartSeries` is its payload; `fontHint` is the discrete
font-size bucket. -/
structure Slide where
  title : List Char
  slideType : SlideType
  bullets : List (List Char)
  paragraph : Option (List Char)
  tableRows : List (List (List Char))
  chartSeries : List Nat
  backgroundImage : Option (List Char)
  fontHint : Nat
deriving DecidableEq

/-- Whether the slide's `bodyKind`-required content is empty. -/
def slideEmpty (s : Slide) : Bool :=
  match s.slideType with
  | .titleSlide => s.title.isEmpty
  | .contentSlide | .comparison | .image => s.bullets.isEmpty
  | .narrative => (s.paragraph.getD []).isEmpty
  | .table => s.tableRows.isEmpty
  | .data => s.chartSeries.isEmpty

/-- Fallback text synthesized from the slide's title. -/
def defaultTitleChars : List Char := ['O', 'v', 'e', 'r', 'v', 'i', 'e', 'w']

/-- Minimal fallback content derived from the slide's own title. -/
def fallbackText (s : Slide) : List Char :=
  if s.title.isEmpty then defaultTitleChars else s.title

/-- Empty-content repair: a structurally empty slide gets minimal
fallback content for its kind instead of staying empty. -/
def emptyPass (s : Slide) : Slide :=
  if slideEmpty s then
    match s.slideType with
    | .titleSlide => { s with title := defaultTitleChars }
    | .contentSlide | .comparison | .image => { s with bullets := [fallbackText s] }
    | .narrative => { s with paragraph := some (fallbackText s) }
    | .table => { s with tableRows := [[fallbackText s]] }
    | .data => { s with chartSeries := [1] }
  else s

/-- Kind-specific bounds: tables capped at `MAX_TABLE_ROWS`×`MAX_TABLE_COLS`
(excess dropped, later-listed first); a comparison slide keeps exactly two
sides, padding missing sides with fallback content. -/
def boundsPass (s : Slide) : Slide :=
  let s1 := { s with
    tableRows := (s.tableRows.take MAX_TABLE_ROWS).map (fun r => r.take MAX_TABLE_COLS) }
  match s.slideType with
  | .comparison => { s1 with bullets := (s1.bullets ++ [fallbackText s, fallbackText s]).take 2 }
  | _ => s1

/-- Length repair with the compression delegate unavailable: every bullet
and the narrative paragraph are truncated at a word boundary to their
ceilings. -/
def lengthPass (s : Slide) : Slide :=
  { s with
    bullets := s.bullets.map (truncateAt MAX_BULLET_CHARS),
    paragraph := s.paragraph.map (truncateAt MAX_PARAGRAPH_CHARS) }

/-- Background-image restriction: only the first slide may keep one. -/
def stripBg (i : Nat) (s : Slide) : Slide :=
  if i = 0 then s else { s with backgroundImage := none }

/-- Rendered character count of a slide's textual content. -/
def totalChars (s : Slide) : Nat :=
  s.title.length + (s.bullets.map List.length).sum + (s.paragraph.getD []).length
    + (s.tableRows.map (fun r => (r.map List.length).sum)).sum

/-- Discrete font-size bucket from content length (0 large, 1 medium,
2 small; thresholds are policy constants). -/
def fontBucket (n : Nat) : Nat :=
  if n ≤ 200 then 0 else if n ≤ 400 then 1 else 2

/-- Dynamic font-size hint: a pure function of content length. -/
def fontPass (s : Slide) : Slide :=
  { s with fontHint := fontBucket (totalChars s) }

/-- All per-slide repairs, structural repair before length repair. -/
def repairSlide (i : Nat) (s : Slide) : Slide :=
  fontPass (stripBg i (lengthPass (boundsPass (emptyPass s))))

/-- Per-slide repair over the deck, tracking slide positions. -/
def mapIdxRepair : Nat → List Slide → List Slide
  | _, [] => []
  | i, s :: rest => repairSlide i s :: mapIdxRepair (i + 1) rest

/-- Whether a slide is a chart slide. -/
def isChart (s : Slide) : Bool := s.slideType == SlideType.data

/-- Count of digit characters in the slide's text: the "quantitative
content" heuristic. -/
def digitCount (s : Slide) : Nat :=
  (s.title ++ s.bullets.foldr (· ++ ·) [] ++ s.paragraph.getD []).countP Char.isDigit

/-- Converts a slide to a chart slide with a minimal series synthesized
from its text. -/
def toChart (s : Slide) : Slide :=
  { s with slideType := SlideType.data, chartSeries := [digitCount s + 1] }

/-- `(index, digit count)` of every non-title slide containing digits,
positions counted from `i`. -/
def quantCands (i : Nat) : List Slide → List (Nat × Nat)
  | [] => []
  | s :: rest =>
    let r := quantCands (i + 1) rest
    if s.slideType ≠ SlideType.titleSlide ∧ 0 < digitCount s then
      (i, digitCount s) :: r
    else r

/-- The candidate with the largest digit count (first on ties). -/
def bestPair : List (Nat × Nat) → Option (Nat × Nat)
  | [] => none
  | p :: rest =>
    match bestPair rest with
    | none => some p
    | some q => some (if p.2 < q.2 then q else p)

/-- Index of the last content slide, positions counted from `i`. -/
def lastContentIdx (i : Nat) : List Slide → Option Nat
  | [] => none
  | s :: rest =>
    match lastContentIdx (i + 1) rest with
    | some j => some j
    | none => if s.slideType = SlideType.contentSlide then some i else none

/-- The slide chosen for chart conversion: the non-title slide with the
most quantitative-looking content; if none qualifies, the last content
slide; failing that, the last slide. -/
def chartIdx (d : List Slide) : Nat :=
  match bestPair (quantCands 0 d) with
  | some p => p.1
  | none =>
    match lastContentIdx 0 d with
    | some j => j
    | none => d.length - 1

/-- Converts the slide at position `j` (other slides untouched). -/
def convertSlideAt : List Slide → Nat → List Slide
  | [], _ => []
  | s :: rest, 0 => toChart s :: rest
  | s :: rest, j + 1 => s :: convertSlideAt rest j

/-- Chart-count guarantee, evaluated once after the per-slide passes:
if no slide is a chart, the chosen candidate is converted. -/
def ensureChart (d : List Slide) : List Slide :=
  if d.any isChart then d else convertSlideAt d (chartIdx d)

/-- The full content-fitting engine over a deck. -/
def contentFitEngine (d : List Slide) : List Slide :=
  ensureChart (mapIdxRepair 0 d)

/-- Bullet ceilings hold on the slide. -/
def bulletsOk (s : Slide) : Bool :=
  s.bullets.all (fun b => b.length ≤ MAX_BULLET_CHARS)

/-- Narrative ceiling holds on the slide. -/
def paragraphOk (s : Slide) : Bool :=
  match s.paragraph with
  | none => true
  | some p => p.length ≤ MAX_PARAGRAPH_CHARS

/-- Kind-specific bounds hold on the slide. -/
def boundsOk (s : Slide) : Bool :=
  s.tableRows.length ≤ MAX_TABLE_ROWS
    && s.tableRows.all (fun r => r.length ≤ MAX_TABLE_COLS)
    && (s.slideType != SlideType.comparison || s.bullets.length == 2)

/-- A slide at position `i` satisfying every per-slide invariant the
engine enforces. -/
def goodSlide (i : Nat) (s : Slide) : Bool :=
  !slideEmpty s && bulletsOk s && paragraphOk s && boundsOk s
    && (i == 0 || s.backgroundImage == none)
    && (s.fontHint == fontBucket (totalChars s))

/-- All slides from position `i` on are good. -/
def goodDeck : Nat → List Slide → Bool
  | _, [] => true
  | i, s :: rest => goodSlide i s && goodDeck (i + 1) rest

/-- A structurally valid deck: every per-slide invariant holds and at
least one slide is a chart. -/
def validDeck (d : List Slide) : Bool :=
  goodDeck 0 d && d.any isChart

/-- A content slide with a title but no content at all, as an upstream
generation failure would produce it. -/
def sampleEmptySlide : Slide :=
  { title := ['T'], slideType := SlideType.contentSlide, bullets := [],
    paragraph := none, tableRows := [], chartSeries := [],
    backgroundImage := none, fontHint := 0 }

/-- A minimal chart slide already satisfying every invariant. -/
def sampleChartSlide : Slide :=
  { title := ['T'], slideType := SlideType.data, bullets := [],
    paragraph := none, tableRows := [], chartSeries := [1],
    backgroundImage := none, fontHint := 0 }

/-! ## Allocation lemmas -/

/-- Division distributes subadditively over a sum of naturals. -/
lemma div_add_div_le (a b c : Nat) : a / c + b / c ≤ (a + b) / c := by
  rcases Nat.eq_zero_or_pos c with h | h
  · simp [h]
  · rw [Nat.le_div_iff_mul_le h, Nat.add_mul]
    exact Nat.add_le_add (Nat.div_mul_le_self a c) (Nat.div_mul_le_self b c)

/-- Summing the floored proportional shares never exceeds the floored
share of the total. -/
lemma sum_map_div_le (l : List Nat) (c w : Nat) :
    (l.map (fun x => c * x / w)).sum ≤ c * l.sum / w := by
  induction l with
  | nil => simp
  | cons x xs ih =>
    calc (List.map (fun x => c * x / w) (x :: xs)).sum
        = c * x / w + (List.map (fun x => c * x / w) xs).sum := by simp
      _ ≤ c * x / w + c * xs.sum / w := Nat.add_le_add_left ih _
      _ ≤ (c * x + c * xs.sum) / w := div_add_div_le _ _ _
      _ = c * (x :: xs).sum / w := by rw [← Nat.mul_add]; simp

/-- The floored base allocation consumes at most the requested total. -/
lemma baseAlloc_sum_le (weights : List Nat) (total : Nat)
    (h : weights.length ≤ total) : (baseAlloc weights total).sum ≤ total := by
  have hsum : (baseAlloc weights total).sum
      = weights.length
        + (weights.map (fun w => (total - weights.length) * w / weights.sum)).sum := by
    unfold baseAlloc
    induction weights with
    | nil => simp
    | cons x xs ih => simp [ih]; omega
  have hdiv : (weights.map (fun w => (total - weights.length) * w / weights.sum)).sum
      ≤ total - weights.length := by
    refine le_trans (sum_map_div_le weights (total - weights.length) weights.sum) ?_
    rcases Nat.eq_zero_or_pos weights.sum with h0 | h0
    · simp [h0]
    · rw [Nat.mul_div_cancel _ h0]
  omega

/-- Replacing the entry at a valid index by itself plus `r` raises the sum
by exactly `r`. -/
lemma sum_set_getD_add (l : List Nat) : ∀ j r, j < l.length →
    (l.set j (l.getD j 0 + r)).sum = l.sum + r := by
  induction l with
  | nil => intro j r h; simp at h
  | cons x xs ih =>
    intro j r h
    cases j with
    | zero => simp [List.getD]; omega
    | succ j =>
      have hj : j < xs.length := by simpa using h
      simp [List.getD] at ih ⊢
      rw [ih j r hj]
      omega

/-- The running maximum of a nonempty list of naturals is an element. -/
lemma foldr_max_mem (l : List Nat) (h : l ≠ []) : l.foldr max 0 ∈ l := by
  induction l with
  | nil => exact absurd rfl h
  | cons x xs ih =>
    cases xs with
    | nil => simp
    | cons y ys =>
      rcases le_total ((y :: ys).foldr max 0) x with hle | hle
      · simp only [List.foldr_cons] at *
        rw [Nat.max_eq_left hle]
        simp
      · simp only [List.foldr_cons] at *
        rw [Nat.max_eq_right hle]
        exact List.mem_cons_of_mem x (ih (by simp))

/-- The argmax index is valid for a nonempty weight list. -/
lemma argmaxIdx_lt (weights : List Nat) (h : weights ≠ []) :
    argmaxIdx weights < weights.length :=
  List.indexOf_lt_length.mpr (foldr_max_mem weights h)

/-- Every base allocation entry grants at least one slide. -/
lemma baseAlloc_mem_pos (weights : List Nat) (total : Nat) :
    ∀ a ∈ baseAlloc weights total, 1 ≤ a := by
  intro a ha
  obtain ⟨w, _, rfl⟩ := List.mem_map.mp ha
  exact Nat.le_add_right 1 _

/-! ## Truncation lemmas -/

/-- The words kept by `fitWords`, joined with single spaces, fit the
budget. -/
lemma joinWords_fitWords_le (ws : List (List Char)) : ∀ budget,
    (joinWords (fitWords budget ws)).length ≤ budget := by
  induction ws with
  | nil => intro budget; simp [fitWords, joinWords]
  | cons w ws ih =>
    intro budget
    by_cases hw : w.length < budget
    · rw [fitWords, if_pos hw]
      cases hws : fitWords (budget - (w.length + 1)) ws with
      | nil => simpa [joinWords] using Nat.le_of_lt hw
      | cons v vs =>
        have := ih (budget - (w.length + 1))
        rw [hws] at this
        have hlen : (joinWords (w :: v :: vs)).length
            = w.length + 1 + (joinWords (v :: vs)).length := by
          simp [joinWords]
          omega
        omega
    · rw [fitWords, if_neg hw]
      simp [joinWords]

/-- `fitWords` keeps an initial run of the word list. -/
lemma fitWords_take (ws : List (List Char)) : ∀ budget,
    ∃ m, fitWords budget ws = ws.take m := by
  induction ws with
  | nil => intro budget; exact ⟨0, rfl⟩
  | cons w ws ih =>
    intro budget
    by_cases hw : w.length < budget
    · obtain ⟨m, hm⟩ := ih (budget - (w.length + 1))
      exact ⟨m + 1, by rw [fitWords, if_pos hw, hm, List.take_succ_cons]⟩
    · exact ⟨0, by rw [fitWords, if_neg hw]; simp⟩

/-- Text already within the ceiling is untouched. -/
lemma truncateAt_of_le {ceiling : Nat} {t : List Char} (h : t.length ≤ ceiling) :
    truncateAt ceiling t = t := by
  simp [truncateAt, h]

/-- Truncated text never exceeds the ceiling (for any ceiling that can
hold the ellipsis marker). -/
lemma truncateAt_length {ceiling : Nat} (h3 : 3 ≤ ceiling) (t : List Char) :
    (truncateAt ceiling t).length ≤ ceiling := by
  by_cases h : t.length ≤ ceiling
  · rwa [truncateAt_of_le h]
  · rw [truncateAt, if_neg h]
    have := joinWords_fitWords_le (splitWords t) (ceiling - ellipsisChars.length)
    simp only [List.length_append]
    simp only [ellipsisChars] at *
    simp at *
    omega

/-- Truncation is idempotent. -/
lemma truncateAt_idem {ceiling : Nat} (h3 : 3 ≤ ceiling) (t : List Char) :
    truncateAt ceiling (truncateAt ceiling t) = truncateAt ceiling t :=
  truncateAt_of_le (truncateAt_length h3 t)

/-- Truncation never produces empty text from nonempty text. -/
lemma truncateAt_ne_nil {ceiling : Nat} {t : List Char} (h : t ≠ []) :
    truncateAt ceiling t ≠ [] := by
  by_cases hle : t.length ≤ ceiling
  · rwa [truncateAt_of_le hle]
  · rw [truncateAt, if_neg hle]
    simp [ellipsisChars]

/-- Over-long text is cut at a word boundary — the kept part is a join of
an initial run of the original words — and ends in the ellipsis marker. -/
lemma truncateAt_word_boundary {ceiling : Nat} {t : List Char}
    (h : ceiling < t.length) :
    ∃ m, truncateAt ceiling t
      = joinWords ((splitWords t).take m) ++ ellipsisChars := by
  obtain ⟨m, hm⟩ := fitWords_take (splitWords t) (ceiling - ellipsisChars.length)
  exact ⟨m, by rw [truncateAt, if_neg (by omega), hm]⟩

/-! ## Engine lemmas: per-slide passes -/

/-- A map whose function fixes every member is the identity. -/
lemma list_map_id {α : Type} (l : List α) (f : α → α) (h : ∀ x ∈ l, f x = x) :
    l.map f = l := by
  induction l with
  | nil => rfl
  | cons x xs ih => simp [h x (by simp), ih (fun y hy => h y (by simp [hy]))]

/-- Truncation preserves (non)emptiness of the text. -/
lemma truncateAt_isEmpty (ceiling : Nat) (t : List Char) :
    (truncateAt ceiling t).isEmpty = t.isEmpty := by
  cases t with
  | nil => rw [truncateAt_of_le (by simp)]
  | cons c cs =>
    have h : truncateAt ceiling (c :: cs) ≠ [] := truncateAt_ne_nil (by simp)
    simp [List.isEmpty_iff, h]

/-- Empty-content repair leaves no slide structurally empty. -/
lemma slideEmpty_emptyPass (s : Slide) : slideEmpty (emptyPass s) = false := by
  by_cases he : slideEmpty s
  · cases hst : s.slideType <;>
      simp_all [emptyPass, slideEmpty, fallbackText, defaultTitleChars] <;>
      split_ifs <;> simp_all
  · simp only [emptyPass, if_neg he]
    exact Bool.not_eq_true _ ▸ (by simpa using he)

/-- Kind-specific bounds never make a non-empty slide empty. -/
lemma slideEmpty_boundsPass (s : Slide) (h : slideEmpty s = false) :
    slideEmpty (boundsPass s) = false := by
  cases hst : s.slideType <;>
    simp_all [boundsPass, slideEmpty, MAX_TABLE_ROWS]

/-- Length repair preserves structural (non)emptiness. -/
lemma slideEmpty_lengthPass (s : Slide) :
    slideEmpty (lengthPass s) = slideEmpty s := by
  cases hst : s.slideType <;> simp_all [lengthPass, slideEmpty]
  case contentSlide => cases s.bullets <;> simp
  case comparison => cases s.bullets <;> simp
  case image => cases s.bullets <;> simp
  case narrative =>
    cases hp : s.paragraph with
    | none => simp
    | some p => simp [truncateAt_isEmpty]

/-- Stripping the background does not touch required content. -/
lemma slideEmpty_stripBg (i : Nat) (s : Slide) :
    slideEmpty (stripBg i s) = slideEmpty s := by
  by_cases hi : i = 0 <;> cases hst : s.slideType <;>
    simp_all [stripBg, slideEmpty]

/-- The font hint does not touch required content. -/
lemma slideEmpty_fontPass (s : Slide) :
    slideEmpty (fontPass s) = slideEmpty s := by
  cases hst : s.slideType <;> simp_all [fontPass, slideEmpty]

/-- The repaired slide is never structurally empty. -/
lemma slideEmpty_repairSlide (i : Nat) (s : Slide) :
    slideEmpty (repairSlide i s) = false := by
  rw [repairSlide, slideEmpty_fontPass, slideEmpty_stripBg, slideEmpty_lengthPass]
  exact slideEmpty_boundsPass _ (slideEmpty_emptyPass s)

/-- Length repair enforces the bullet ceiling. -/
lemma bulletsOk_lengthPass (s : Slide) : bulletsOk (lengthPass s) = true := by
  simp only [bulletsOk, lengthPass, List.all_eq_true]
  intro b hb
  obtain ⟨b0, _, rfl⟩ := List.mem_map.mp hb
  simpa using truncateAt_length (by decide) b0

/-- Length repair enforces the narrative ceiling. -/
lemma paragraphOk_lengthPass (s : Slide) : paragraphOk (lengthPass s) = true := by
  cases hp : s.paragraph with
  | none => simp [paragraphOk, lengthPass, hp]
  | some p =>
    simp only [paragraphOk, lengthPass, hp, Option.map_some]
    simpa using truncateAt_length (by decide) p

/-- `boundsOk` unfolded to its propositional content. -/
lemma boundsOk_iff (s : Slide) : boundsOk s = true ↔
    s.tableRows.length ≤ MAX_TABLE_ROWS
    ∧ (∀ r ∈ s.tableRows, r.length ≤ MAX_TABLE_COLS)
    ∧ (s.slideType = SlideType.comparison → s.bullets.length = 2) := by
  simp [boundsOk, List.all_eq_true, Bool.and_eq_true, Bool.or_eq_true,
    bne_iff_ne, beq_iff_eq, or_iff_not_imp_left, not_not, and_assoc]

/-- The capped table fits the row bound. -/
lemma cappedRows_length (rows : List (List (List Char))) :
    ((rows.take MAX_TABLE_ROWS).map (fun r => r.take MAX_TABLE_COLS)).length
      ≤ MAX_TABLE_ROWS := by
  simpa using List.length_take_le MAX_TABLE_ROWS rows

/-- Every capped row fits the column bound. -/
lemma cappedRows_cols (rows : List (List (List Char))) :
    ∀ r ∈ (rows.take MAX_TABLE_ROWS).map (fun r => r.take MAX_TABLE_COLS),
      r.length ≤ MAX_TABLE_COLS := by
  intro r hr
  obtain ⟨r0, _, rfl⟩ := List.mem_map.mp hr
  simpa using List.length_take_le MAX_TABLE_COLS r0

/-- Kind-specific bounds hold after the bounds pass. -/
lemma boundsOk_boundsPass (s : Slide) : boundsOk (boundsPass s) = true := by
  rw [boundsOk_iff]
  cases hst : s.slideType <;> simp only [boundsPass, hst]
  case comparison =>
    refine ⟨cappedRows_length s.tableRows, cappedRows_cols s.tableRows, fun _ => ?_⟩
    simp [List.length_take]
  all_goals
    exact ⟨cappedRows_length s.tableRows, cappedRows_cols s.tableRows,
      fun hc => absurd hc (by simp)⟩

/-- Bounds-pass results are untouched by length repair. -/
lemma boundsOk_lengthPass (s : Slide) : boundsOk (lengthPass s) = boundsOk s := by
  simp [boundsOk, lengthPass]

/-- Bounds-pass results are untouched by the background strip. -/
lemma boundsOk_stripBg (i : Nat) (s : Slide) : boundsOk (stripBg i s) = boundsOk s := by
  by_cases hi : i = 0 <;> simp [boundsOk, stripBg, hi]

/-- Bounds-pass results are untouched by the font pass. -/
lemma boundsOk_fontPass (s : Slide) : boundsOk (fontPass s) = boundsOk s := by
  simp [boundsOk, fontPass]

/-- Bullet ceilings are untouched by the background strip. -/
lemma bulletsOk_stripBg (i : Nat) (s : Slide) :
    bulletsOk (stripBg i s) = bulletsOk s := by
  by_cases hi : i = 0 <;> simp [bulletsOk, stripBg, hi]

/-- Bullet ceilings are untouched by the font pass. -/
lemma bulletsOk_fontPass (s : Slide) : bulletsOk (fontPass s) = bulletsOk s := by
  simp [bulletsOk, fontPass]

/-- Narrative ceilings are untouched by the background strip. -/
lemma paragraphOk_stripBg (i : Nat) (s : Slide) :
    paragraphOk (stripBg i s) = paragraphOk s := by
  by_cases hi : i = 0 <;> simp [paragraphOk, stripBg, hi]

/-- Narrative ceilings are untouched by the font pass. -/
lemma paragraphOk_fontPass (s : Slide) : paragraphOk (fontPass s) = paragraphOk s := by
  simp [paragraphOk, fontPass]

/-- The font pass reads content only, never the hint itself. -/
lemma totalChars_fontPass (s : Slide) : totalChars (fontPass s) = totalChars s := by
  simp [totalChars, fontPass]

/-- The background of a repaired non-first slide is stripped. -/
lemma repairSlide_bg (i : Nat) (s : Slide) (hi : i ≠ 0) :
    (repairSlide i s).backgroundImage = none := by
  simp [repairSlide, fontPass, stripBg, hi]

/-- The repaired slide carries the recomputed font bucket. -/
lemma repairSlide_fontHint (i : Nat) (s : Slide) :
    (repairSlide i s).fontHint = fontBucket (totalChars (repairSlide i s)) := by
  simp [repairSlide, totalChars_fontPass]
  simp [fontPass, totalChars]

/-- `goodSlide` unfolded to its propositional content. -/
lemma goodSlide_iff (i : Nat) (s : Slide) : goodSlide i s = true ↔
    slideEmpty s = false ∧ bulletsOk s = true ∧ paragraphOk s = true
    ∧ boundsOk s = true ∧ (i = 0 ∨ s.backgroundImage = none)
    ∧ s.fontHint = fontBucket (totalChars s) := by
  simp [goodSlide, Bool.and_eq_true, Bool.or_eq_true, beq_iff_eq,
    Bool.not_eq_true', and_assoc]

/-- Every repaired slide satisfies every per-slide invariant. -/
lemma goodSlide_repairSlide (i : Nat) (s : Slide) :
    goodSlide i (repairSlide i s) = true := by
  rw [goodSlide_iff]
  refine ⟨slideEmpty_repairSlide i s, ?_, ?_, ?_, ?_, repairSlide_fontHint i s⟩
  · rw [repairSlide, bulletsOk_fontPass, bulletsOk_stripBg]
    exact bulletsOk_lengthPass _
  · rw [repairSlide, paragraphOk_fontPass, paragraphOk_stripBg]
    exact paragraphOk_lengthPass _
  · rw [repairSlide, boundsOk_fontPass, boundsOk_stripBg, boundsOk_lengthPass]
    exact boundsOk_boundsPass _
  · by_cases hi : i = 0
    · exact Or.inl hi
    · exact Or.inr (repairSlide_bg i s hi)

/-! ## Engine lemmas: fixed points -/

/-- A non-empty slide needs no empty-content repair. -/
lemma emptyPass_id (s : Slide) (h : slideEmpty s = false) : emptyPass s = s := by
  simp [emptyPass, h]

/-- A slide within its kind-specific bounds needs no bounds repair. -/
lemma boundsPass_id (s : Slide) (h : boundsOk s = true) : boundsPass s = s := by
  obtain ⟨hlen, hcols, hcomp⟩ := (boundsOk_iff s).mp h
  have hX : (s.tableRows.take MAX_TABLE_ROWS).map (fun r => r.take MAX_TABLE_COLS)
      = s.tableRows := by
    rw [List.take_of_length_le hlen]
    exact list_map_id _ _ (fun r hr => List.take_of_length_le (hcols r hr))
  cases hst : s.slideType <;> simp only [boundsPass, hst, hX]
  case comparison =>
    have h2 : s.bullets.length = 2 := hcomp hst
    rw [show (s.bullets ++ [fallbackText s, fallbackText s]).take 2 = s.bullets by
      rw [← h2, List.take_left]]
    rw [← hst]
  all_goals rw [← hst]

/-- A slide within its ceilings needs no length repair. -/
lemma lengthPass_id (s : Slide) (hb : bulletsOk s = true)
    (hp : paragraphOk s = true) : lengthPass s = s := by
  have h1 : s.bullets.map (truncateAt MAX_BULLET_CHARS) = s.bullets := by
    refine list_map_id _ _ (fun b hbm => truncateAt_of_le ?_)
    have := (List.all_eq_true.mp hb) b hbm
    simpa using this
  have h2 : s.paragraph.map (truncateAt MAX_PARAGRAPH_CHARS) = s.paragraph := by
    cases hpp : s.paragraph with
    | none => rfl
    | some p =>
      rw [paragraphOk, hpp] at hp
      simp [truncateAt_of_le (by simpa using hp)]
  simp [lengthPass, h1, h2]

/-- A slide with no stray background needs no stripping. -/
lemma stripBg_id (i : Nat) (s : Slide) (h : i = 0 ∨ s.backgroundImage = none) :
    stripBg i s = s := by
  rcases h with h | h
  · simp [stripBg, h]
  · by_cases hi : i = 0
    · simp [stripBg, hi]
    · simp only [stripBg, if_neg hi]
      cases s
      simp_all

/-- A slide with the correct font bucket needs no font update. -/
lemma fontPass_id (s : Slide) (h : s.fontHint = fontBucket (totalChars s)) :
    fontPass s = s := by
  simp only [fontPass, ← h]

/-- A good slide is a fixed point of the per-slide repair. -/
lemma repairSlide_id (i : Nat) (s : Slide) (h : goodSlide i s = true) :
    repairSlide i s = s := by
  obtain ⟨he, hb, hp, hbd, hbg, hf⟩ := (goodSlide_iff i s).mp h
  rw [repairSlide, emptyPass_id s he, boundsPass_id s hbd, lengthPass_id s hb hp,
    stripBg_id i s hbg, fontPass_id s hf]

/-! ## Engine lemmas: deck level -/

/-- Per-slide repair keeps the deck length. -/
lemma mapIdxRepair_length (d : List Slide) : ∀ i,
    (mapIdxRepair i d).length = d.length := by
  induction d with
  | nil => intro i; rfl
  | cons s rest ih => intro i; simp [mapIdxRepair, ih]

/-- Every slide of a repaired deck is good at its position. -/
lemma goodDeck_mapIdxRepair (d : List Slide) : ∀ i,
    goodDeck i (mapIdxRepair i d) = true := by
  induction d with
  | nil => intro i; rfl
  | cons s rest ih =>
    intro i
    simp [mapIdxRepair, goodDeck, goodSlide_repairSlide, ih]

/-- A deck that is already good slide-by-slide is a fixed point of the
per-slide repair. -/
lemma mapIdxRepair_id (d : List Slide) : ∀ i, goodDeck i d = true →
    mapIdxRepair i d = d := by
  induction d with
  | nil => intro i _; rfl
  | cons s rest ih =>
    intro i h
    rw [goodDeck, Bool.and_eq_true] at h
    rw [mapIdxRepair, repairSlide_id i s h.1, ih (i + 1) h.2]

/-- Chart conversion preserves every per-slide invariant. -/
lemma goodSlide_toChart (i : Nat) (s : Slide) (h : goodSlide i s = true) :
    goodSlide i (toChart s) = true := by
  obtain ⟨he, hb, hp, hbd, hbg, hf⟩ := (goodSlide_iff i s).mp h
  rw [goodSlide_iff]
  refine ⟨rfl, hb, hp, ?_, hbg, hf⟩
  obtain ⟨h1, h2, _⟩ := (boundsOk_iff s).mp hbd
  rw [boundsOk_iff]
  exact ⟨h1, h2,
    fun hc => absurd (show SlideType.data = SlideType.comparison from hc) (by simp)⟩

/-- Converting one slide preserves deck-wide goodness. -/
lemma goodDeck_convertSlideAt (d : List Slide) : ∀ i j, goodDeck i d = true →
    goodDeck i (convertSlideAt d j) = true := by
  induction d with
  | nil => intro i j _; rfl
  | cons s rest ih =>
    intro i j h
    rw [goodDeck, Bool.and_eq_true] at h
    cases j with
    | zero =>
      rw [convertSlideAt, goodDeck, Bool.and_eq_true]
      exact ⟨goodSlide_toChart i s h.1, h.2⟩
    | succ j =>
      rw [convertSlideAt, goodDeck, Bool.and_eq_true]
      exact ⟨h.1, ih (i + 1) j h.2⟩

/-- Converting a valid position yields a deck with a chart slide. -/
lemma convertSlideAt_hasChart (d : List Slide) : ∀ j, j < d.length →
    (convertSlideAt d j).any isChart = true := by
  induction d with
  | nil => intro j h; simp at h
  | cons s rest ih =>
    intro j hj
    cases j with
    | zero => simp [convertSlideAt, isChart, toChart]
    | succ j =>
      have := ih j (by simpa using hj)
      simp [convertSlideAt, List.any_cons, this]

/-- Conversion keeps the deck length. -/
lemma convertSlideAt_length (d : List Slide) : ∀ j,
    (convertSlideAt d j).length = d.length := by
  induction d with
  | nil => intro j; rfl
  | cons s rest ih =>
    intro j
    cases j with
    | zero => rfl
    | succ j => simp [convertSlideAt, ih]

/-- A selected best candidate is one of the candidates. -/
lemma bestPair_mem (l : List (Nat × Nat)) : ∀ p, bestPair l = some p → p ∈ l := by
  induction l with
  | nil => intro p h; simp [bestPair] at h
  | cons q rest ih =>
    intro p h
    rw [bestPair] at h
    cases hb : bestPair rest with
    | none => rw [hb] at h; simp at h; simp [h]
    | some q' =>
      rw [hb] at h
      simp at h
      by_cases hlt : q.2 < q'.2
      · rw [if_pos hlt] at h
        exact List.mem_cons_of_mem q (ih p (h ▸ hb))
      · rw [if_neg hlt] at h
        simp [← h]

/-- Candidate indices stay below the running position plus list length. -/
lemma quantCands_lt (d : List Slide) : ∀ i p, p ∈ quantCands i d →
    p.1 < i + d.length := by
  induction d with
  | nil => intro i p h; simp [quantCands] at h
  | cons s rest ih =>
    intro i p h
    rw [quantCands] at h
    by_cases hc : s.slideType ≠ SlideType.titleSlide ∧ 0 < digitCount s
    · rw [if_pos hc] at h
      rcases List.mem_cons.mp h with h | h
      · simp [h]
      · have := ih (i + 1) p h
        simp at this ⊢
        omega
    · rw [if_neg hc] at h
      have := ih (i + 1) p h
      simp at this ⊢
      omega

/-- The last-content index stays below the running position plus length. -/
lemma lastContentIdx_lt (d : List Slide) : ∀ i j, lastContentIdx i d = some j →
    j < i + d.length := by
  induction d with
  | nil => intro i j h; simp [lastContentIdx] at h
  | cons s rest ih =>
    intro i j h
    rw [lastContentIdx] at h
    cases hr : lastContentIdx (i + 1) rest with
    | some j' =>
      rw [hr] at h
      have := ih (i + 1) j' hr
      simp at h
      simp [← h] at this ⊢
      omega
    | none =>
      rw [hr] at h
      by_cases hs : s.slideType = SlideType.contentSlide
      · rw [if_pos hs] at h
        simp at h
        simp [← h]
      · rw [if_neg hs] at h
        simp at h

/-- The conversion index is valid on a nonempty deck. -/
lemma chartIdx_lt (d : List Slide) (h : d ≠ []) : chartIdx d < d.length := by
  rw [chartIdx]
  cases hb : bestPair (quantCands 0 d) with
  | some p =>
    have := quantCands_lt d 0 p (bestPair_mem _ p hb)
    simpa using this
  | none =>
    cases hl : lastContentIdx 0 d with
    | some j =>
      have := lastContentIdx_lt d 0 j hl
      simpa using this
    | none =>
      have : 0 < d.length := List.length_pos.mpr h
      show d.length - 1 < d.length
      omega

/-- A deck that already has a chart slide is a fixed point of the
chart-count guarantee. -/
lemma ensureChart_id (d : List Slide) (h : d.any isChart = true) :
    ensureChart d = d := by
  simp [ensureChart, h]

/-- The chart-count guarantee preserves deck-wide goodness. -/
lemma goodDeck_ensureChart (d : List Slide) (h : goodDeck 0 d = true) :
    goodDeck 0 (ensureChart d) = true := by
  rw [ensureChart]
  by_cases hc : d.any isChart = true
  · rwa [if_pos hc]
  · rw [if_neg hc]
    exact goodDeck_convertSlideAt d 0 (chartIdx d) h

/-- The engine output is good slide-by-slide. -/
lemma goodDeck_contentFitEngine (d : List Slide) :
    goodDeck 0 (contentFitEngine d) = true :=
  goodDeck_ensureChart _ (goodDeck_mapIdxRepair d 0)

/-- The engine output of a nonempty deck contains a chart slide. -/
lemma contentFitEngine_hasChart (d : List Slide) (h : d ≠ []) :
    (contentFitEngine d).any isChart = true := by
  rw [contentFitEngine, ensureChart]
  by_cases hc : (mapIdxRepair 0 d).any isChart = true
  · rwa [if_pos hc]
  · rw [if_neg hc]
    refine convertSlideAt_hasChart _ _ (chartIdx_lt _ ?_)
    intro hnil
    have := mapIdxRepair_length d 0
    rw [hnil] at this
    exact h (List.eq_nil_of_length_eq_zero this.symm)

/-- The engine output of a nonempty deck is a structurally valid deck. -/
lemma validDeck_contentFitEngine (d : List Slide) (h : d ≠ []) :
    validDeck (contentFitEngine d) = true := by
  rw [validDeck, Bool.and_eq_true]
  exact ⟨goodDeck_contentFitEngine d, contentFitEngine_hasChart d h⟩

/-- A structurally valid deck is a fixed point of the engine. -/
lemma contentFitEngine_id (d : List Slide) (h : validDeck d = true) :
    contentFitEngine d = d := by
  rw [validDeck, Bool.and_eq_true] at h
  rw [contentFitEngine, mapIdxRepair_id d 0 h.1, ensureChart_id d h.2]

/-- The engine maps the empty deck to the empty deck. -/
lemma contentFitEngine_nil : contentFitEngine [] = [] := rfl

/-- The engine is idempotent. -/
lemma contentFitEngine_idem (d : List Slide) :
    contentFitEngine (contentFitEngine d) = contentFitEngine d := by
  cases hd : d with
  | nil => rw [contentFitEngine_nil, contentFitEngine_nil]
  | cons s rest =>
    exact contentFitEngine_id _ (validDeck_contentFitEngine _ (by simp))

/-- Deck-wide goodness gives per-slide goodness at some position. -/
lemma goodDeck_mem (d : List Slide) : ∀ i, goodDeck i d = true →
    ∀ s ∈ d, ∃ k, goodSlide k s = true := by
  induction d with
  | nil => intro i _ s hs; simp at hs
  | cons t rest ih =>
    intro i h s hs
    rw [goodDeck, Bool.and_eq_true] at h
    rcases List.mem_cons.mp hs with hs | hs
    · exact ⟨i, hs ▸ h.1⟩
    · exact ih (i + 1) h.2 s hs

/-! ## Lifecycle lemmas -/

/-- A failed job accepts no further operation, so it commits no snapshot. -/
lemma runJob_failed (k p : Nat) (ops : List JobOp) :
    runJob { stageIdx := k, failed := true, progress := p } ops = [] := by
  induction ops with
  | nil => rfl
  | cons op ops ih => cases op <;> simp [runJob, applyOp, ih]

/-- An accepted operation commits its snapshot and the run continues from
it. -/
lemma runJob_cons_accept (j j' : JobRec) {op : JobOp} (ops : List JobOp)
    (h : applyOp j op = some j') :
    runJob j (op :: ops) = j' :: runJob j' ops := by
  simp [runJob, h]

/-- A rejected operation commits nothing. -/
lemma runJob_cons_reject {j : JobRec} {op : JobOp} (ops : List JobOp)
    (h : applyOp j op = none) :
    runJob j (op :: ops) = runJob j ops := by
  simp [runJob, h]

/-- Advancing a live job to the immediate successor stage is accepted. -/
lemma applyOp_advance_accept {k p : Nat} {t : String}
    (hlt : k + 1 < statusSteps.length)
    (ht : t = statusSteps.getD (k + 1) "") :
    applyOp { stageIdx := k, failed := false, progress := p } (.advance t) =
      some { stageIdx := k + 1, failed := false,
             progress := progressOfStage (k + 1) } := by
  simp [applyOp, hlt, ht]

/-- Statuses committed from a live job at stage `k` are a take of the
remaining stage ordering, possibly closed by a single `error`. -/
lemma runJob_statuses (ops : List JobOp) : ∀ k p, k < statusSteps.length →
    ∃ n, (runJob { stageIdx := k, failed := false, progress := p } ops).map
            JobRec.statusStr = (statusSteps.drop (k + 1)).take n
       ∨ (runJob { stageIdx := k, failed := false, progress := p } ops).map
            JobRec.statusStr = (statusSteps.drop (k + 1)).take n ++ ["error"] := by
  induction ops with
  | nil => intro k p hk; exact ⟨0, Or.inl (by simp [runJob])⟩
  | cons op ops ih =>
    intro k p hk
    cases op with
    | advance t =>
      by_cases hlt : k + 1 < statusSteps.length
      · by_cases ht : t = statusSteps.getD (k + 1) ""
        · obtain ⟨n, hn⟩ := ih (k + 1) (progressOfStage (k + 1)) hlt
          refine ⟨n + 1, ?_⟩
          have hdrop : statusSteps.drop (k + 1) =
              statusSteps.get ⟨k + 1, hlt⟩ :: statusSteps.drop (k + 2) :=
            List.drop_eq_getElem_cons hlt
          have hstat : JobRec.statusStr
              { stageIdx := k + 1, failed := false,
                progress := progressOfStage (k + 1) } =
              statusSteps.get ⟨k + 1, hlt⟩ := by
            simp [JobRec.statusStr, List.getD_eq_getElem?_getD,
              List.getElem?_eq_getElem hlt]
          rw [runJob_cons_accept _ _ ops (applyOp_advance_accept hlt ht),
            List.map_cons, hstat, hdrop, List.take_succ_cons]
          cases hn with
          | inl h => exact Or.inl (by rw [h])
          | inr h => exact Or.inr (by rw [h, List.cons_append])
        · obtain ⟨n, hn⟩ := ih k p hk
          refine ⟨n, ?_⟩
          have hgd : statusSteps.getD (k + 1) "" = statusSteps[k + 1] := by
            simp [List.getD_eq_getElem?_getD, List.getElem?_eq_getElem hlt]
          rw [hgd] at ht
          rwa [runJob_cons_reject ops (by simp [applyOp, hlt, ht])]
      · obtain ⟨n, hn⟩ := ih k p hk
        refine ⟨n, ?_⟩
        rwa [runJob_cons_reject ops (by simp [applyOp, hlt])]
    | fail =>
      by_cases hterm : k = statusSteps.length - 1
      · obtain ⟨n, hn⟩ := ih k p hk
        refine ⟨n, ?_⟩
        rwa [runJob_cons_reject ops (by simp [applyOp, hterm])]
      · refine ⟨0, Or.inr ?_⟩
        rw [runJob_cons_accept _ { stageIdx := k, failed := true, progress := p }
          ops (by simp [applyOp, hterm])]
        simp [runJob_failed, JobRec.statusStr]

/-- Per-step monotonicity of the fixed progress table along the stage
ordering. -/
lemma progressOfStage_step_mono : ∀ k, k < 11 →
    progressOfStage k ≤ progressOfStage (k + 1) := by decide

/-- Progress values committed from a live job are non-decreasing, provided
the job's current progress does not exceed its stage's table value. -/
lemma runJob_progress (ops : List JobOp) : ∀ k p, k < statusSteps.length →
    p ≤ progressOfStage k →
    List.Chain' (· ≤ ·)
      (p :: (runJob { stageIdx := k, failed := false, progress := p } ops).map
        JobRec.progress) := by
  induction ops with
  | nil => intro k p _ _; simp [runJob]
  | cons op ops ih =>
    intro k p hk hp
    cases op with
    | advance t =>
      by_cases hlt : k + 1 < statusSteps.length
      · by_cases ht : t = statusSteps.getD (k + 1) ""
        · have hmono : progressOfStage k ≤ progressOfStage (k + 1) :=
            progressOfStage_step_mono k (by
              have : k + 1 < 12 := by simpa [statusSteps] using hlt
              omega)
          have htail := ih (k + 1) (progressOfStage (k + 1)) hlt le_rfl
          rw [runJob_cons_accept _ _ ops (applyOp_advance_accept hlt ht),
            List.map_cons]
          exact List.chain'_cons.mpr ⟨le_trans hp hmono, htail⟩
        · have hgd : statusSteps.getD (k + 1) "" = statusSteps[k + 1] := by
            simp [List.getD_eq_getElem?_getD, List.getElem?_eq_getElem hlt]
          rw [hgd] at ht
          rw [runJob_cons_reject ops (by simp [applyOp, hlt, ht])]
          exact ih k p hk hp
      · rw [runJob_cons_reject ops (by simp [applyOp, hlt])]
        exact ih k p hk hp
    | fail =>
      by_cases hterm : k = statusSteps.length - 1
      · rw [runJob_cons_reject ops (by simp [applyOp, hterm])]
        exact ih k p hk hp
      · rw [runJob_cons_accept _ { stageIdx := k, failed := true, progress := p }
          ops (by simp [applyOp, hterm])]
        simp [runJob_failed]

/-! ## Claim theorems -/

/-- C1 counterexample: the UI's step enumeration exposes `generating`,
which is neither in the claimed enumeration (whose 95% stage is named
`rendering`) nor `error`; and the claimed initial state `received` appears
in no status vocabulary of the code. -/
theorem c1_counterexample :
    "generating" ∈ statusSteps
    ∧ "generating" ∉ specClaimedStatusOrder ∧ "generating" ≠ "error"
    ∧ "received" ∈ specClaimedStatusOrder
    ∧ "received" ∉ statusSteps ∧ "received" ∉ deckStatusValues := by decide

/-- C1 (amended): every status value the code exposes is a member of the
fixed ordered enumeration `outline, analyze, content, charts, optimize,
layout, design, images, adjust, review, generating, done` (plus `error`);
that enumeration has no duplicates; and the sequence of states recorded
over a job's lifetime is exactly a prefix of it, possibly followed by
`error` — no state skipped, repeated, or out of order. -/
theorem c1_status_linear :
    (deckStatusValues.all (fun s => statusSteps.contains s || s == "error")) = true
    ∧ (progressTable.all (fun p => statusSteps.contains p.1)) = true
    ∧ statusSteps.Nodup
    ∧ ∀ ops : List JobOp, ∃ n,
        observedStatuses ops = statusSteps.take n
        ∨ observedStatuses ops = statusSteps.take n ++ ["error"] := by
  refine ⟨by decide, by decide, by decide, ?_⟩
  intro ops
  obtain ⟨n, hn⟩ := runJob_statuses ops 0 0 (by decide)
  refine ⟨n + 1, ?_⟩
  have hs0 : JobRec.statusStr { stageIdx := 0, failed := false, progress := 0 }
      = "outline" := rfl
  have hTake : statusSteps.take (n + 1)
      = "outline" :: (statusSteps.drop (0 + 1)).take n := by
    simp [statusSteps]
  simp only [observedStatuses, initialJob, List.map_cons, hs0]
  cases hn with
  | inl h => exact Or.inl (by rw [h, hTake])
  | inr h => exact Or.inr (by rw [h, hTake, List.cons_append])

/-- C4 counterexample: the fixed progress table has no entry for the
claimed state `rendering`; the 95% entry belongs to `generating`. -/
theorem c4_counterexample :
    progressTable.lookup "rendering" = none
    ∧ progressTable.lookup "generating" = some 95 := by decide

/-- C4 (amended): progress is the fixed design-constant mapping
outline=10, analyze=18, content=30, charts=36, optimize=42, layout=52,
design=60, images=70, adjust=80, review=90, generating=95, done=100
(the 95% stage is named `generating`, not `rendering`), and the progress
values observed over any job lifetime are non-decreasing. -/
theorem c4_progress_fixed_monotone :
    statusSteps.map (fun s => progressTable.lookup s)
      = [some 10, some 18, some 30, some 36, some 42, some 52, some 60,
         some 70, some 80, some 90, some 95, some 100]
    ∧ ∀ ops : List JobOp, List.Chain' (· ≤ ·) (observedProgress ops) := by
  refine ⟨by decide, ?_⟩
  intro ops
  have h := runJob_progress ops 0 0 (by decide) (by decide)
  have hp0 : JobRec.progress { stageIdx := 0, failed := false, progress := 0 }
      = 0 := rfl
  simpa only [observedProgress, initialJob, List.map_cons, hp0] using h

/-- C2 counterexample: a creation request whose audience and template lie
outside the enumerated sets is not rejected — the handler forwards it to
the backing generation pipeline. -/
theorem c2_counterexample :
    postDecks { prompt := "AI in Healthcare", slideCount := 10,
                audience := "martian", template := "vaporwave" }
      = PostOutcome.forwarded
    ∧ (postDecks { prompt := "AI in Healthcare", slideCount := 10,
                   audience := "martian", template := "vaporwave" }).createsJob
      = true
    ∧ "martian" ∉ audienceValues ∧ "vaporwave" ∉ templateValues := by decide

/-- C2 (amended): the POST handler validates the prompt (non-blank) and
the slide count (truthy and in [5,30]); exactly the requests passing those
checks are forwarded, a slide count outside [5,30] never creates a job,
while audience and template are not validated at all. -/
theorem c2_route_validation (b : DeckRequestBody) :
    (postDecks b = PostOutcome.forwarded ↔
      (b.prompt ≠ "" ∧ promptBlank b.prompt = false ∧ b.slideCount ≠ 0
        ∧ 5 ≤ b.slideCount ∧ b.slideCount ≤ 30))
    ∧ ((b.slideCount < 5 ∨ 30 < b.slideCount) →
        (postDecks b).createsJob = false) := by
  unfold postDecks
  split_ifs with h1 h2
  · constructor
    · constructor
      · intro h; simp at h
      · rintro ⟨hp, hb, -, -, -⟩
        rcases h1 with h1 | h1
        · exact absurd h1 hp
        · rw [hb] at h1; simp at h1
    · intro _; rfl
  · constructor
    · constructor
      · intro h; simp at h
      · rintro ⟨-, -, h0, h5, h30⟩
        rcases h2 with h2 | h2 | h2 <;> omega
    · intro _; rfl
  · push_neg at h1 h2
    constructor
    · constructor
      · intro _
        exact ⟨h1.1, by simpa using h1.2, h2.1, by omega, by omega⟩
      · intro _; rfl
    · intro hcount
      exfalso
      rcases hcount with hc | hc
      · exact absurd hc (by omega)
      · exact absurd hc (by omega)

/-- C2 witness: a well-formed request is forwarded; an over-long deck
request creates no job. -/
theorem c2_witness :
    postDecks { prompt := "Quantum computing", slideCount := 12,
                audience := "business", template := "corporate" }
      = PostOutcome.forwarded
    ∧ (postDecks { prompt := "Topic", slideCount := 50,
                   audience := "business", template := "corporate" }).createsJob
      = false :=
  ⟨(c2_route_validation _).1.mpr (by decide), (c2_route_validation _).2 (by decide)⟩

/-- C6 counterexample: a freshly created job is observable in state
`outline`, not `received`; no status vocabulary of the code contains
`received`. -/
theorem c6_counterexample :
    (get_status (create_deck { decks := [], queued := [] } "deck-1").2 "deck-1").map
        BackendDeck.status = some "outline"
    ∧ "outline" ≠ "received"
    ∧ "received" ∉ deckStatusValues ∧ "received" ∉ statusSteps := by decide

/-- C6 (amended): for every state and id, `create_deck` returns its
response synchronously (generation is only queued, never run), and the
created job is immediately observable in state `outline` with progress 0
(there is no `received` state in the code). -/
theorem c6_create_immediate (st : BackendState) (newId : String) :
    (create_deck st newId).1 = { deckId := newId, status := "outline" }
    ∧ get_status (create_deck st newId).2 newId
        = some { status := "outline", progress := 0 }
    ∧ (create_deck st newId).2.queued = st.queued ++ [newId] := by
  refine ⟨rfl, ?_, rfl⟩
  simp [get_status, create_deck, List.lookup]

/-- C9: every `DeckForm` submission satisfies the create precondition by
construction — the slider clamps the slide count into [5,30] with default
10, the audience options are exactly the `Audience` values, and the
template options are a strict subset of the `Template` values, never
offering creative/nature/futuristic/luxury. -/
theorem c9_deck_form_options :
    (∀ v : Int, formSlideMin ≤ formSliderValue v ∧ formSliderValue v ≤ formSlideMax)
    ∧ formSlideDefault = 10 ∧ formSlideMin = 5 ∧ formSlideMax = 30
    ∧ formAudienceOptions = audienceValues
    ∧ (formTemplateOptions.all (fun t => templateValues.contains t)) = true
    ∧ formTemplateOptions ≠ templateValues
    ∧ (["creative", "nature", "futuristic", "luxury"].all
        (fun t => templateValues.contains t && !(formTemplateOptions.contains t))) = true
    ∧ formAudienceDefault ∈ formAudienceOptions
    ∧ formTemplateDefault ∈ formTemplateOptions := by
  refine ⟨?_, by decide, by decide, by decide, by decide, by decide, by decide,
    by decide, by decide, by decide⟩
  intro v
  exact ⟨le_max_left _ _, max_le (by decide) (min_le_left _ _)⟩

/-- C10: for each of the five valid `DeckStatus` values analyze, content,
optimize, layout and review, the `DeckList` color and label lookup tables
(keyed by the legacy values outline/plan/fix/render/done/error) have no
matching entry, so the rendered tag's color and label are undefined. -/
theorem c10_decklist_lookup_gaps :
    (["analyze", "content", "optimize", "layout", "review"].all
      (fun s => deckStatusValues.contains s
        && (deckListStatusColors.lookup s).isNone
        && (deckListStatusLabels.lookup s).isNone)) = true := by decide

/-- C5: for any nonempty outline with section weights and any requested
slide count at least the section count, the weighted allocation sums to
exactly the requested count, grants every section at least one slide, and
covers exactly the given sections. -/
theorem c5_allocation_conservation (weights : List Nat) (total : Nat)
    (hne : weights ≠ []) (hle : weights.length ≤ total) :
    (allocateSlides weights total).sum = total
    ∧ (∀ a ∈ allocateSlides weights total, 1 ≤ a)
    ∧ (allocateSlides weights total).length = weights.length := by
  have hjlt : argmaxIdx weights < (baseAlloc weights total).length := by
    rw [baseAlloc, List.length_map]
    exact argmaxIdx_lt weights hne
  have hsum := baseAlloc_sum_le weights total hle
  refine ⟨?_, ?_, ?_⟩
  · rw [allocateSlides, sum_set_getD_add _ _ _ hjlt]
    omega
  · intro a ha
    rw [allocateSlides] at ha
    rcases List.mem_or_eq_of_mem_set ha with ha | ha
    · exact baseAlloc_mem_pos weights total a ha
    · have hmem : (baseAlloc weights total).getD (argmaxIdx weights) 0
          ∈ baseAlloc weights total := by
        rw [List.getD_eq_getElem _ _ hjlt]
        exact List.getElem_mem hjlt
      have h1 := baseAlloc_mem_pos weights total _ hmem
      omega
  · rw [allocateSlides, List.length_set, baseAlloc, List.length_map]

/-- C5 witness: two sections with weights 3 and 1 share five slides as
[4, 1]: the sum is conserved and each section keeps at least one slide. -/
theorem c5_witness :
    allocateSlides [3, 1] 5 = [4, 1]
    ∧ (allocateSlides [3, 1] 5).sum = 5
    ∧ ∀ a ∈ allocateSlides [3, 1] 5, 1 ≤ a :=
  ⟨by decide, (c5_allocation_conservation [3, 1] 5 (by decide) (by decide)).1,
    (c5_allocation_conservation [3, 1] 5 (by decide) (by decide)).2.1⟩

/-- C3: for every job whose nonempty deck completes the pipeline, the
engine-validated deck contains at least one chart slide and no
structurally empty slide. -/
theorem c3_done_deck_guarantees (d : List Slide) (h : d ≠ []) :
    1 ≤ (contentFitEngine d).countP isChart
    ∧ ∀ s ∈ contentFitEngine d, slideEmpty s = false := by
  constructor
  · obtain ⟨s, hs, hcs⟩ := List.any_eq_true.mp (contentFitEngine_hasChart d h)
    exact List.countP_pos_iff.mpr ⟨s, hs, hcs⟩
  · intro s hs
    obtain ⟨k, hk⟩ := goodDeck_mem _ 0 (goodDeck_contentFitEngine d) s hs
    exact ((goodSlide_iff k s).mp hk).1

/-- C3 witness: a one-slide deck with no content at all completes with a
chart slide and no empty slide. -/
theorem c3_witness :
    1 ≤ (contentFitEngine [sampleEmptySlide]).countP isChart
    ∧ ∀ s ∈ contentFitEngine [sampleEmptySlide], slideEmpty s = false :=
  c3_done_deck_guarantees [sampleEmptySlide] (by simp)

/-- C7: in every engine-validated deck no bullet exceeds
`MAX_BULLET_CHARS` and no paragraph exceeds `MAX_PARAGRAPH_CHARS`; and any
bullet text over the ceiling, repaired without the compression delegate,
is cut at a word boundary to at most the ceiling and ends in the ellipsis
marker. -/
theorem c7_text_ceilings :
    (∀ d : List Slide, ∀ s ∈ contentFitEngine d,
      (∀ b ∈ s.bullets, b.length ≤ MAX_BULLET_CHARS)
      ∧ ∀ p, s.paragraph = some p → p.length ≤ MAX_PARAGRAPH_CHARS)
    ∧ ∀ t : List Char, MAX_BULLET_CHARS < t.length →
        (truncateAt MAX_BULLET_CHARS t).length ≤ MAX_BULLET_CHARS
        ∧ ellipsisChars <:+ truncateAt MAX_BULLET_CHARS t
        ∧ ∃ m, truncateAt MAX_BULLET_CHARS t
            = joinWords ((splitWords t).take m) ++ ellipsisChars := by
  constructor
  · intro d s hs
    obtain ⟨k, hk⟩ := goodDeck_mem _ 0 (goodDeck_contentFitEngine d) s hs
    obtain ⟨-, hb, hp, -, -, -⟩ := (goodSlide_iff k s).mp hk
    constructor
    · intro b hbm
      have := List.all_eq_true.mp hb b hbm
      simpa using this
    · intro p hpp
      rw [paragraphOk, hpp] at hp
      simpa using hp
  · intro t ht
    obtain ⟨m, hm⟩ := truncateAt_word_boundary ht
    exact ⟨truncateAt_length (by decide) t, hm ▸ List.suffix_append _ _, m, hm⟩

/-- C7 witness: a 100-character single-word bullet is truncated to the
ellipsis-terminated word-boundary form within the 80-character ceiling. -/
theorem c7_witness :
    (truncateAt MAX_BULLET_CHARS (List.replicate 100 'a')).length ≤ MAX_BULLET_CHARS
    ∧ ellipsisChars <:+ truncateAt MAX_BULLET_CHARS (List.replicate 100 'a')
    ∧ ∃ m, truncateAt MAX_BULLET_CHARS (List.replicate 100 'a')
        = joinWords ((splitWords (List.replicate 100 'a')).take m) ++ ellipsisChars :=
  c7_text_ceilings.2 (List.replicate 100 'a') (by simp [MAX_BULLET_CHARS])

/-- C8: the content-fitting engine is idempotent — applying it twice to
any deck equals applying it once — and an already-valid deck is a fixed
point. -/
theorem c8_engine_idempotent :
    (∀ d : List Slide, contentFitEngine (contentFitEngine d) = contentFitEngine d)
    ∧ ∀ d : List Slide, validDeck d = true → contentFitEngine d = d :=
  ⟨contentFitEngine_idem, contentFitEngine_id⟩

/-- C8 witness: a concrete valid one-chart deck is untouched by the
engine. -/
theorem c8_witness :
    validDeck [sampleChartSlide] = true
    ∧ contentFitEngine [sampleChartSlide] = [sampleChartSlide] :=
  ⟨by decide, c8_engine_idempotent.2 [sampleChartSlide] (by decide)⟩

end SlidesGen
